import Mathlib

/-!
Verification of the expression-analysis pipeline of the EquationVisualizer
repository (`src/utils/mathParser.ts` and `src/utils/mathAnalysis.ts`).

The TypeScript code delegates parsing, symbolic differentiation and the
transcendental functions to the host library (mathjs).  Those host
capabilities are modelled as parameters bundled in `HostCaps`.  JavaScript
numbers are modelled by exact rationals extended with the two signed
infinities and NaN: evaluating a node yields `EvalOut.num q`,
`EvalOut.posInf`, `EvalOut.negInf` or `EvalOut.nan`, a non-numeric host
value (e.g. a complex number) is `EvalOut.nonNum`, and a thrown exception
is `EvalOut.thrown`.  Infinities stay ordered in comparisons (as in
JavaScript) while NaN compares false against everything.
`evaluateExpression` returns `Option ℚ`; its `none` covers every
non-finite outcome, which is how each consumer of that value (the
`isFinite` guards of the mesh and the scan, and the epsilon comparisons of
the symmetry probe) treats both NaN and the infinities in the source.
-/

/-- The symbolic AST built by the host parser (mathjs node tree). -/
inductive MathNode where
  | num (q : ℚ)
  | sym (name : String)
  | add (a b : MathNode)
  | sub (a b : MathNode)
  | mul (a b : MathNode)
  | div (a b : MathNode)
  | pow (a b : MathNode)
  | neg (a : MathNode)
  | call (fname : String) (arg : MathNode)
deriving DecidableEq

/-- Outcome of evaluating a node in the host: a finite number, one of the
signed infinities, NaN, a non-numeric value, or a thrown exception. -/
inductive EvalOut where
  | num (q : ℚ)
  | posInf
  | negInf
  | nan
  | nonNum
  | thrown
deriving DecidableEq

/-- A JavaScript number: a finite (rational) value, a signed infinity, or
NaN.  This is the domain of the raw numeric arithmetic and comparisons. -/
inductive JSNum where
  | fin (q : ℚ)
  | posInf
  | negInf
  | nan
deriving DecidableEq

/-- The numeric part of an evaluation outcome (callers rule out the
non-numeric constructors before using this). -/
def EvalOut.toJN : EvalOut → JSNum
  | .num q => .fin q
  | .posInf => .posInf
  | .negInf => .negInf
  | _ => .nan

def JSNum.toEval : JSNum → EvalOut
  | .fin q => .num q
  | .posInf => .posInf
  | .negInf => .negInf
  | .nan => .nan

/-- IEEE addition: NaN propagates, opposite infinities give NaN. -/
def jnAdd : JSNum → JSNum → JSNum
  | .nan, _ => .nan
  | _, .nan => .nan
  | .fin a, .fin b => .fin (a + b)
  | .posInf, .negInf => .nan
  | .negInf, .posInf => .nan
  | .posInf, _ => .posInf
  | _, .posInf => .posInf
  | .negInf, _ => .negInf
  | _, .negInf => .negInf

def jnNeg : JSNum → JSNum
  | .fin q => .fin (-q)
  | .posInf => .negInf
  | .negInf => .posInf
  | .nan => .nan

def jnSub (a b : JSNum) : JSNum := jnAdd a (jnNeg b)

/-- IEEE multiplication: NaN propagates, infinity times zero is NaN,
otherwise signs multiply. -/
def jnMul : JSNum → JSNum → JSNum
  | .nan, _ => .nan
  | _, .nan => .nan
  | .fin a, .fin b => .fin (a * b)
  | .posInf, .fin b => if b = 0 then .nan else if 0 < b then .posInf else .negInf
  | .fin a, .posInf => if a = 0 then .nan else if 0 < a then .posInf else .negInf
  | .negInf, .fin b => if b = 0 then .nan else if 0 < b then .negInf else .posInf
  | .fin a, .negInf => if a = 0 then .nan else if 0 < a then .negInf else .posInf
  | .posInf, .posInf => .posInf
  | .posInf, .negInf => .negInf
  | .negInf, .posInf => .negInf
  | .negInf, .negInf => .posInf

/-- IEEE division (there is no negative zero in this exact model): `0/0`
is NaN, `x/0` is a signed infinity for `x ≠ 0`, finite over infinite is
zero, infinite over infinite is NaN. -/
def jnDiv : JSNum → JSNum → JSNum
  | .nan, _ => .nan
  | _, .nan => .nan
  | .fin a, .fin b =>
    if b = 0 then (if a = 0 then .nan else if 0 < a then .posInf else .negInf)
    else .fin (a / b)
  | .fin _, .posInf => .fin 0
  | .fin _, .negInf => .fin 0
  | .posInf, .fin b => if 0 ≤ b then .posInf else .negInf
  | .negInf, .fin b => if 0 ≤ b then .negInf else .posInf
  | _, _ => .nan

/-- `Math.abs`. -/
def jnAbs : JSNum → JSNum
  | .fin q => .fin |q|
  | .nan => .nan
  | _ => .posInf

/-- The JavaScript comparison `v > bound`: infinities are ordered, NaN
compares false. -/
def jnGt (v : JSNum) (bound : ℚ) : Bool :=
  match v with
  | .fin a => bound < a
  | .posInf => true
  | .negInf => false
  | .nan => false

/-- The JavaScript comparison `v < bound`: infinities are ordered, NaN
compares false. -/
def jnLt (v : JSNum) (bound : ℚ) : Bool :=
  match v with
  | .fin a => a < bound
  | .posInf => false
  | .negInf => true
  | .nan => false

/-- JavaScript exponentiation on numbers: integer exponents of finite
bases are exact, `0` to a negative power is `Infinity`, a base of
magnitude one raised to an infinity is NaN (as in `Math.pow`), NaN to the
power `0` is `1`; a non-integer exponent of a finite base falls through to
the host (`hp`), which may produce a complex (non-numeric) value. -/
def jnPow (hp : ℚ → ℚ → EvalOut) : JSNum → JSNum → EvalOut
  | _, .nan => .nan
  | .nan, .fin y => if y = 0 then .num 1 else .nan
  | .nan, _ => .nan
  | .fin x, .fin y =>
    if y.den = 1 then
      (if x = 0 ∧ y.num < 0 then .posInf else .num (x ^ y.num))
    else hp x y
  | .fin x, .posInf =>
    if |x| < 1 then .num 0 else if |x| = 1 then .nan else .posInf
  | .fin x, .negInf =>
    if |x| < 1 then .posInf else if |x| = 1 then .nan else .num 0
  | .posInf, .fin y => if y = 0 then .num 1 else if 0 < y then .posInf else .num 0
  | .posInf, .posInf => .posInf
  | .posInf, .negInf => .num 0
  | .negInf, .fin y =>
    if y = 0 then .num 1
    else if 0 < y then (if y.den = 1 ∧ y.num % 2 ≠ 0 then .negInf else .posInf)
    else .num 0
  | .negInf, .posInf => .posInf
  | .negInf, .negInf => .num 0

/-- Host (mathjs) capabilities the source code calls into. -/
structure HostCaps where
  /-- `parse` : string to AST, may throw (modelled by `Except.error`). -/
  parseCap : String → Except String MathNode
  /-- the host's unary functions (`sin`, `log`, ...) applied to a finite
  numeric argument; unknown names throw, domain errors yield `nan` or a
  non-numeric (complex) value. -/
  funcs : String → ℚ → EvalOut
  /-- the host's unary functions applied to an infinite argument (`true`
  for `Infinity`, `false` for `-Infinity`): e.g. `sin` gives NaN, `exp`
  gives `Infinity`. -/
  funcsInf : String → Bool → EvalOut
  /-- predefined constants of the evaluation scope (`pi`, `e`, ...); a name
  that is neither bound nor a constant makes evaluation throw. -/
  consts : String → Option ℚ
  /-- the host's power function for a non-integer exponent (irrational or
  complex results are host-side values). -/
  ratPow : ℚ → ℚ → EvalOut
  /-- `derivative(node, var)` : symbolic differentiation, may throw. -/
  deriv : MathNode → String → Except String MathNode

/-- Combine two operand outcomes with a binary arithmetic operation on
JavaScript numbers, propagating exceptions and non-numeric values the way
the host does. -/
def binArith (op : JSNum → JSNum → EvalOut) : EvalOut → EvalOut → EvalOut
  | .thrown, _ => .thrown
  | _, .thrown => .thrown
  | .nonNum, _ => .nonNum
  | _, .nonNum => .nonNum
  | a, b => op a.toJN b.toJN

/-- `node.evaluate(scope)` of the host: bindings shadow constants, unknown
symbols throw, arithmetic follows JavaScript number semantics (signed
infinities, NaN), integer powers of finite bases are exact. -/
def rawEval (H : HostCaps) (scope : List (String × ℚ)) : MathNode → EvalOut
  | .num q => .num q
  | .sym name =>
    match scope.lookup name with
    | some q => .num q
    | none =>
      match H.consts name with
      | some q => .num q
      | none => .thrown
  | .add a b =>
    binArith (fun x y => (jnAdd x y).toEval) (rawEval H scope a) (rawEval H scope b)
  | .sub a b =>
    binArith (fun x y => (jnSub x y).toEval) (rawEval H scope a) (rawEval H scope b)
  | .mul a b =>
    binArith (fun x y => (jnMul x y).toEval) (rawEval H scope a) (rawEval H scope b)
  | .div a b =>
    binArith (fun x y => (jnDiv x y).toEval) (rawEval H scope a) (rawEval H scope b)
  | .pow a b =>
    binArith (fun x y => jnPow H.ratPow x y) (rawEval H scope a) (rawEval H scope b)
  | .neg a =>
    match rawEval H scope a with
    | .thrown => .thrown
    | .nonNum => .nonNum
    | e => (jnNeg e.toJN).toEval
  | .call f a =>
    match rawEval H scope a with
    | .num q => H.funcs f q
    | .posInf => H.funcsInf f true
    | .negInf => H.funcsInf f false
    | e => e

/-- `interface ParsedExpression` of `mathParser.ts`; the field the source
calls `variables` is named `vars` here (`variables` is reserved in Lean). -/
structure ParsedExpression where
  node : MathNode
  vars : List String
  isValid : Bool
  errorMessage : Option String := none
deriving DecidableEq

/- ### Text normalization (the cleaning steps of `parseMathExpression`)

JavaScript string operations are modelled over `List Char`.  `replace` with
a `/.../g` regex is a single left-to-right non-overlapping pass. -/

/-- ASCII letter test, the `[a-zA-Z]` character class. -/
def isAsciiLetter (c : Char) : Bool :=
  (('a' ≤ c) && (c ≤ 'z')) || (('A' ≤ c) && (c ≤ 'Z'))

/-- Leading whitespace removal (half of `String.prototype.trim`). -/
def dropLeadingWs : List Char → List Char
  | [] => []
  | c :: rest => if c.isWhitespace then dropLeadingWs rest else c :: rest

/-- `String.prototype.trim` over the character list. -/
def trimChars (s : List Char) : List Char :=
  (dropLeadingWs (dropLeadingWs s.reverse).reverse)

/-- `split('=')` : split at every `=` character. -/
def splitEq : List Char → List (List Char)
  | [] => [[]]
  | '=' :: rest => [] :: splitEq rest
  | c :: rest =>
    match splitEq rest with
    | h :: t => (c :: h) :: t
    | [] => [[c]]

/-- One global-regex replacement pass for a literal pattern
(`String.prototype.replace(/pat/g, rep)`): scan left to right, replacing
non-overlapping occurrences.  `fuel` bounds the recursion and starts at the
string length, which suffices for the non-empty patterns used here. -/
def replaceAllAux (pat rep : List Char) : Nat → List Char → List Char
  | 0, s => s
  | _, [] => []
  | fuel + 1, c :: rest =>
    if pat.isPrefixOf (c :: rest) then
      rep ++ replaceAllAux pat rep fuel ((c :: rest).drop pat.length)
    else
      c :: replaceAllAux pat rep fuel rest

def replaceAll (pat rep s : List Char) : List Char :=
  replaceAllAux pat rep s.length s

/-- `.replace(/(\d)([a-zA-Z])/g, '$1*$2')` : `2x` becomes `2*x`. -/
def insDigitLetter : List Char → List Char
  | c1 :: c2 :: rest =>
    if c1.isDigit && isAsciiLetter c2 then c1 :: '*' :: c2 :: insDigitLetter rest
    else c1 :: insDigitLetter (c2 :: rest)
  | l => l

/-- `.replace(/([a-zA-Z])(\d)/g, '$1*$2')` : `x2` becomes `x*2`. -/
def insLetterDigit : List Char → List Char
  | c1 :: c2 :: rest =>
    if isAsciiLetter c1 && c2.isDigit then c1 :: '*' :: c2 :: insLetterDigit rest
    else c1 :: insLetterDigit (c2 :: rest)
  | l => l

/-- `.replace(/\)([a-zA-Z(])/g, ')*$1')` : `)(` or `)x` gain a `*`. -/
def insParenLetter : List Char → List Char
  | c1 :: c2 :: rest =>
    if c1 = ')' && (isAsciiLetter c2 || c2 = '(') then c1 :: '*' :: c2 :: insParenLetter rest
    else c1 :: insParenLetter (c2 :: rest)
  | l => l

/-- `.replace(/([a-zA-Z])\(/g, '$1*(')` : `x(` becomes `x*(`. -/
def insLetterParen : List Char → List Char
  | c1 :: c2 :: rest =>
    if isAsciiLetter c1 && c2 = '(' then c1 :: '*' :: c2 :: insLetterParen rest
    else c1 :: insLetterParen (c2 :: rest)
  | l => l

/-- The notational-symbol substitutions of `parseMathExpression`, in source
order (the `/\^/g → '^'` step is the identity and is omitted). -/
def substituteSymbols (s : List Char) : List Char :=
  let s := replaceAll "×".data "*".data s
  let s := replaceAll "÷".data "/".data s
  let s := replaceAll "−".data "-".data s
  let s := replaceAll "π".data "pi".data s
  let s := replaceAll "sin⁻¹".data "asin".data s
  let s := replaceAll "cos⁻¹".data "acos".data s
  let s := replaceAll "tan⁻¹".data "atan".data s
  let s := replaceAll "ln".data "log".data s
  replaceAll "√".data "sqrt".data s

/-- The `=`-handling step: with exactly two sides, keep the right side when
the left is `z`, `y` or `f`, else rewrite to `(left) - (right)`. -/
def handleEquals (s : List Char) : List Char :=
  match splitEq s with
  | [l, r] =>
    let left := trimChars l
    let right := trimChars r
    if left = ['z'] || left = ['y'] || left = ['f'] then right
    else '(' :: left ++ ')' :: ' ' :: '-' :: ' ' :: '(' :: right ++ [')']
  | _ => s

/-- The full cleaning pipeline applied to the raw equation before the host
parser is called (`parseMathExpression`, `mathParser.ts`). -/
def normalizeEquation (equation : String) : String :=
  let c := trimChars equation.data
  let c := handleEquals c
  let c := substituteSymbols c
  let c := insDigitLetter c
  let c := insLetterDigit c
  let c := insParenLetter c
  let c := insLetterParen c
  String.mk c

/- ### Variable extraction -/

/-- The names of all `SymbolNode`s of the tree in traversal (pre-)order,
including the function-name symbol of a call node, as `node.traverse`
visits it. -/
def symbolLeaves : MathNode → List String
  | .num _ => []
  | .sym name => [name]
  | .add a b => symbolLeaves a ++ symbolLeaves b
  | .sub a b => symbolLeaves a ++ symbolLeaves b
  | .mul a b => symbolLeaves a ++ symbolLeaves b
  | .div a b => symbolLeaves a ++ symbolLeaves b
  | .pow a b => symbolLeaves a ++ symbolLeaves b
  | .neg a => symbolLeaves a
  | .call f a => f :: symbolLeaves a

/-- Is the character list a single ASCII letter (`/^[a-zA-Z]$/`)? -/
def isSingleLetter (s : String) : Bool :=
  match s.data with
  | [c] => isAsciiLetter c
  | _ => false

/-- The fixed exclusion list of `extractVariables`. -/
def excludedNames : List String :=
  ["pi", "e", "sin", "cos", "tan", "log", "sqrt", "exp", "abs",
   "asin", "acos", "atan", "sinh", "cosh", "tanh"]

/-- The filter of `extractVariables`: single letter or `pi`/`e`, and not in
the exclusion list. -/
def keepAsVariable (name : String) : Bool :=
  (isSingleLetter name || (name = "pi" || name = "e")) && !(excludedNames.contains name)

/-- Add to a JavaScript `Set` modelled as a list without duplicates: keep
insertion order, ignore an element already present. -/
def addUnique (acc : List String) (s : String) : List String :=
  if acc.contains s then acc else acc ++ [s]

/-- The contents of the `Set` after inserting every element of the list:
first occurrences, in order. -/
def dedupFirst (l : List String) : List String := l.foldl addUnique []

/-- Lexicographic comparison of character lists by code point, the order
JavaScript string comparison uses. -/
def charListLe : List Char → List Char → Bool
  | [], _ => true
  | _ :: _, [] => false
  | a :: as, b :: bs =>
    if a.toNat < b.toNat then true
    else if b.toNat < a.toNat then false
    else charListLe as bs

def strLe (a b : String) : Bool := charListLe a.data b.data

def insertSorted (s : String) : List String → List String
  | [] => [s]
  | a :: rest => if strLe s a then s :: a :: rest else a :: insertSorted s rest

/-- Insertion sort with the JavaScript default string comparator
(`Array.prototype.sort()`). -/
def sortStrings : List String → List String
  | [] => []
  | a :: rest => insertSorted a (sortStrings rest)

/-- `extractVariables` of `mathParser.ts`: collect qualifying symbol names
into a `Set` during traversal, then sort (`Array.from(set).sort()`). -/
def extractVariables (node : MathNode) : List String :=
  sortStrings (dedupFirst ((symbolLeaves node).filter keepAsVariable))

/- ### parseMathExpression / evaluateExpression / createMeshData -/

/-- `parseMathExpression` of `mathParser.ts`: clean, parse via the host,
extract variables; on a thrown parse error return the invalid placeholder
with a constant-zero tree. -/
def parseMathExpression (H : HostCaps) (equation : String) : ParsedExpression :=
  let cleanEquation := normalizeEquation equation
  match H.parseCap cleanEquation with
  | .ok node => ⟨node, extractVariables node, true, none⟩
  | .error msg => ⟨.num 0, [], false, some msg⟩

/-- `evaluateExpression` of `mathParser.ts`: `NaN` (here `none`) on an
invalid expression, a thrown evaluation, a non-finite value or a
non-numeric result; otherwise the finite numeric result. -/
def evaluateExpression (H : HostCaps) (parsedExpr : ParsedExpression)
    (scope : List (String × ℚ)) : Option ℚ :=
  if parsedExpr.isValid then
    match rawEval H scope parsedExpr.node with
    | .num q => some q
    | _ => none
  else none

/-- The three grids returned by `createMeshData`; `none` in `z` is the
`null` sentinel for a non-finite sample. -/
structure MeshData where
  x : List (List ℚ)
  y : List (List ℚ)
  z : List (List (Option ℚ))

/-- `createMeshData` of `mathParser.ts`: row index `i` ranges over Y,
column index `j` over X; each `z` entry is the evaluation at the grid
point, with non-finite values already `none`. -/
def createMeshData (H : HostCaps) (parsedExpr : ParsedExpression)
    (xMin xMax yMin yMax : ℚ) (resolution : Nat) : MeshData :=
  let xStep : ℚ := (xMax - xMin) / ((resolution : ℚ) - 1)
  let yStep : ℚ := (yMax - yMin) / ((resolution : ℚ) - 1)
  { x := (List.range resolution).map fun (_ : ℕ) =>
      (List.range resolution).map fun (j : ℕ) => xMin + (j : ℚ) * xStep
    y := (List.range resolution).map fun (i : ℕ) =>
      (List.range resolution).map fun (_ : ℕ) => yMin + (i : ℚ) * yStep
    z := (List.range resolution).map fun (i : ℕ) =>
      (List.range resolution).map fun (j : ℕ) =>
        evaluateExpression H parsedExpr
          [("x", xMin + (j : ℚ) * xStep), ("y", yMin + (i : ℚ) * yStep)] }

/- ### mathAnalysis.ts: data model -/

/-- `interface DerivativeData` of `mathAnalysis.ts`: optional normalized
textual derivative forms. -/
structure DerivativeData where
  fx : Option String := none
  fy : Option String := none
  fxx : Option String := none
  fyy : Option String := none
  fxy : Option String := none
deriving DecidableEq

/-- The classification outcomes of `classifyCriticalPoint`. -/
inductive CPKind where
  | minimum
  | maximum
  | saddle
  | unknown
deriving DecidableEq

/-- `interface CriticalPoint` of `mathAnalysis.ts`. -/
structure CriticalPoint where
  x : ℚ
  y : ℚ
  z : ℚ
  type : CPKind
deriving DecidableEq

/-- `interface LimitData` of `mathAnalysis.ts`. -/
structure LimitData where
  xToInf : String
  xToNegInf : String
  yToInf : String
  yToNegInf : String
  atOrigin : String
deriving DecidableEq

/-- `interface FunctionProperties` of `mathAnalysis.ts`; the source field
`variables` is named `vars` here. -/
structure FunctionProperties where
  type : String
  vars : List String
  dimension : Nat
  symmetry : String
  continuity : String
  domain : String
deriving DecidableEq

/-- `interface AnalysisResult` of `mathAnalysis.ts`. -/
structure AnalysisResult where
  derivatives : DerivativeData
  criticalPoints : List CriticalPoint
  limits : LimitData
  properties : FunctionProperties
deriving DecidableEq

/- ### node.toString(): a precedence-aware renderer for the AST

mathjs renders operator nodes infix with spaces and inserts parentheses
around lower-precedence children.  Constants in this embedding are exact
rationals; a non-integer constant renders as a fraction (the host renders
the decimal expansion of its binary double, an encoding detail no claim
depends on). -/

/-- Decimal digits of a natural number; `fuel` bounds the recursion. -/
def natDigits : Nat → Nat → List Char
  | 0, _ => []
  | fuel + 1, n =>
    if n < 10 then [Char.ofNat (48 + n)]
    else natDigits fuel (n / 10) ++ [Char.ofNat (48 + n % 10)]

def natStr (n : Nat) : String := String.mk (natDigits (n + 1) n)

def intStr (i : Int) : String :=
  if i < 0 then "-" ++ natStr (-i).toNat else natStr i.toNat

def ratStr (q : ℚ) : String :=
  if q.den = 1 then intStr q.num else intStr q.num ++ "/" ++ natStr q.den

/-- Operator precedence used when rendering. -/
def MathNode.prec : MathNode → Nat
  | .add _ _ => 1
  | .sub _ _ => 1
  | .mul _ _ => 2
  | .div _ _ => 2
  | .pow _ _ => 3
  | .neg _ => 4
  | _ => 5

def parenIf (b : Bool) (s : String) : String :=
  if b then "(" ++ s ++ ")" else s

/-- `node.toString()` of the host. -/
def MathNode.render : MathNode → String
  | .num q => ratStr q
  | .sym s => s
  | .add a b => parenIf (a.prec < 1) a.render ++ " + " ++ parenIf (b.prec ≤ 1) b.render
  | .sub a b => parenIf (a.prec < 1) a.render ++ " - " ++ parenIf (b.prec ≤ 1) b.render
  | .mul a b => parenIf (a.prec < 2) a.render ++ " * " ++ parenIf (b.prec ≤ 2) b.render
  | .div a b => parenIf (a.prec < 2) a.render ++ " / " ++ parenIf (b.prec ≤ 2) b.render
  | .pow a b => parenIf (a.prec ≤ 3) a.render ++ " ^ " ++ parenIf (b.prec < 3) b.render
  | .neg a => "-" ++ parenIf (a.prec ≤ 1) a.render
  | .call f a => f ++ "(" ++ a.render ++ ")"

/- ### calculateDerivatives -/

/-- The `variables.includes('x')` block of `calculateDerivatives`: compute
`fx`, then `fxx`, then (if `y` is free) `fxy`, assigning each field as soon
as it is computed; a thrown `derivative` call is caught and ends the block,
keeping the fields already assigned. -/
def xBranch (H : HostCaps) (p : ParsedExpression) (d : DerivativeData) : DerivativeData :=
  if p.vars.contains "x" then
    match H.deriv p.node "x" with
    | .error _ => d
    | .ok fx =>
      let d := { d with fx := some fx.render }
      match H.deriv fx "x" with
      | .error _ => d
      | .ok fxx =>
        let d := { d with fxx := some fxx.render }
        if p.vars.contains "y" then
          match H.deriv fx "y" with
          | .error _ => d
          | .ok fxy => { d with fxy := some fxy.render }
        else d
  else d

/-- The `variables.includes('y')` block of `calculateDerivatives`: compute
`fy` then `fyy`, with the same catch-and-keep behavior. -/
def yBranch (H : HostCaps) (p : ParsedExpression) (d : DerivativeData) : DerivativeData :=
  if p.vars.contains "y" then
    match H.deriv p.node "y" with
    | .error _ => d
    | .ok fy =>
      let d := { d with fy := some fy.render }
      match H.deriv fy "y" with
      | .error _ => d
      | .ok fyy => { d with fyy := some fyy.render }
  else d

/-- `calculateDerivatives` of `mathAnalysis.ts`: empty for an invalid
expression, otherwise the `x` block then the `y` block, each protected by
its own try/catch. -/
def calculateDerivatives (H : HostCaps) (parsedExpr : ParsedExpression) : DerivativeData :=
  if parsedExpr.isValid then
    yBranch H parsedExpr (xBranch H parsedExpr {})
  else {}

/- ### classifyCriticalPoint -/

/-- Convert a host evaluation outcome to the raw JavaScript number the
caller's arithmetic sees: exceptions stay exceptional (`Except.error`),
numbers (finite, infinite or NaN) pass through, and a non-numeric value
(e.g. a mathjs Complex object) coerces to NaN under the plain JavaScript
operators the classifier and the scan use. -/
def evalNum (e : EvalOut) : Except Unit JSNum :=
  match e with
  | .num q => .ok (.fin q)
  | .posInf => .ok .posInf
  | .negInf => .ok .negInf
  | .nan => .ok .nan
  | .nonNum => .ok .nan
  | .thrown => .error ()

/-- The body of the try block of `classifyCriticalPoint` once all three
second-derivative strings are present: parse each string, evaluate each at
`(x, y)` (a throw anywhere aborts, in source order), then compare the
discriminant. -/
def classifyCore (H : HostCaps) (sxx syy sxy : String) (x y : ℚ) :
    Except Unit CPKind :=
  match H.parseCap sxx with
  | .error _ => .error ()
  | .ok nxx =>
    match H.parseCap syy with
    | .error _ => .error ()
    | .ok nyy =>
      match H.parseCap sxy with
      | .error _ => .error ()
      | .ok nxy =>
        match evalNum (rawEval H [("x", x), ("y", y)] nxx) with
        | .error _ => .error ()
        | .ok fxxVal =>
          match evalNum (rawEval H [("x", x), ("y", y)] nyy) with
          | .error _ => .error ()
          | .ok fyyVal =>
            match evalNum (rawEval H [("x", x), ("y", y)] nxy) with
            | .error _ => .error ()
            | .ok fxyVal =>
              let discriminant := jnSub (jnMul fxxVal fyyVal) (jnMul fxyVal fxyVal)
              if jnGt discriminant 0 then
                .ok (if jnGt fxxVal 0 then .minimum else .maximum)
              else if jnLt discriminant 0 then .ok .saddle
              else .ok .unknown

/-- `classifyCriticalPoint` of `mathAnalysis.ts`: `unknown` when a second
derivative is absent or anything in the try block throws. -/
def classifyCriticalPoint (H : HostCaps) (derivatives : DerivativeData)
    (x y : ℚ) : CPKind :=
  match derivatives.fxx, derivatives.fyy, derivatives.fxy with
  | some sxx, some syy, some sxy =>
    match classifyCore H sxx syy sxy x y with
    | .ok k => k
    | .error _ => .unknown
  | _, _, _ => .unknown

/- ### findCriticalPoints -/

/-- Number of iterations of `for (let v = lo; v <= hi; v += 0.5)`. -/
def scanCount (lo hi : ℚ) : Nat :=
  if hi < lo then 0 else (⌊(hi - lo) * 2⌋).toNat + 1

/-- The values visited by `for (let v = lo; v <= hi; v += 0.5)`, in visit
order. -/
def scanList (lo hi : ℚ) : List ℚ :=
  (List.range (scanCount lo hi)).map fun (k : ℕ) => lo + (k : ℚ) * (1 / 2)

/-- One iteration of the inner loop of `findCriticalPoints`: re-parse the
two first-derivative strings, evaluate them at `(x, y)`; when both are
within tolerance, evaluate `z` and, if it is finite, classify and emit the
point.  A thrown exception anywhere skips the candidate (`none`). -/
def candidateAt (H : HostCaps) (parsedExpr : ParsedExpression)
    (derivatives : DerivativeData) (sfx sfy : String) (x y : ℚ) :
    Option CriticalPoint :=
  match H.parseCap sfx, H.parseCap sfy with
  | .ok fxNode, .ok fyNode =>
    match evalNum (rawEval H [("x", x), ("y", y)] fxNode),
          evalNum (rawEval H [("x", x), ("y", y)] fyNode) with
    | .ok fxVal, .ok fyVal =>
      if jnLt (jnAbs fxVal) (1 / 10) && jnLt (jnAbs fyVal) (1 / 10) then
        match evaluateExpression H parsedExpr [("x", x), ("y", y)] with
        | some z => some ⟨x, y, z, classifyCriticalPoint H derivatives x y⟩
        | none => none
      else none
    | _, _ => none
  | _, _ => none

/-- `findCriticalPoints` of `mathAnalysis.ts`: empty unless the expression
is valid and both `fx` and `fy` are present; otherwise scan `x` (outer)
and `y` (inner) from min to max in steps of `0.5`, collect candidates, and
return the first 10 (`criticalPoints.slice(0, 10)`). -/
def findCriticalPoints (H : HostCaps) (parsedExpr : ParsedExpression)
    (derivatives : DerivativeData) (xMin xMax yMin yMax : ℚ) :
    List CriticalPoint :=
  match parsedExpr.isValid, derivatives.fx, derivatives.fy with
  | true, some sfx, some sfy =>
    ((scanList xMin xMax).flatMap fun x =>
      (scanList yMin yMax).filterMap fun y =>
        candidateAt H parsedExpr derivatives sfx sfy x y).take 10
  | _, _, _ => []

/- ### calculateLimits / analyzeProperties / analyzeExpression -/

/-- `calculateLimits` of `mathAnalysis.ts`: fixed placeholder strings. -/
def calculateLimits (_parsedExpr : ParsedExpression) : LimitData :=
  ⟨"Not calculated", "Not calculated", "Not calculated",
   "Not calculated", "Not calculated"⟩

/-- Substring search over character lists (`String.prototype.includes`). -/
def containsSub (pat : List Char) : List Char → Bool
  | [] => pat.isPrefixOf []
  | c :: rest => pat.isPrefixOf (c :: rest) || containsSub pat rest

def strContains (s pat : String) : Bool := containsSub pat.data s.data

/-- The character class `[\d\s+\-*/^xy()]` of the polynomial test. -/
def polyChar (c : Char) : Bool :=
  c.isDigit || c.isWhitespace ||
    (c = '+' || c = '-' || c = '*' || c = '/' || c = '^' ||
     c = 'x' || c = 'y' || c = '(' || c = ')')

/-- The regex test of the polynomial check: nonempty and every character
in the class above. -/
def polyTest (s : List Char) : Bool :=
  !s.isEmpty && s.all polyChar

/-- `s.replace(/\s/g, '')`. -/
def stripWs (s : List Char) : List Char := s.filter (fun c => !c.isWhitespace)

/-- The family string computed by `analyzeProperties` from
`parsedExpr.node.toString()`. -/
def familyOf (exprString : String) : String :=
  if strContains exprString "sin" || strContains exprString "cos" ||
      strContains exprString "tan" then "Trigonometric"
  else if strContains exprString "exp" then "Exponential"
  else if strContains exprString "log" then "Logarithmic"
  else if polyTest (stripWs exprString.data) then "Polynomial"
  else "General"

/-- The symmetry probe of `analyzeProperties`: only when `x` is free and
`y` is not, compare `f(1)` with `f(-1)`; NaN comparisons fail, keeping the
default. -/
def symmetryOf (H : HostCaps) (p : ParsedExpression) : String :=
  if p.vars.contains "x" && !(p.vars.contains "y") then
    match evaluateExpression H p [("x", 1)], evaluateExpression H p [("x", -1)] with
    | some testVal, some testNegVal =>
      if |testVal - testNegVal| < 1 / 10 ^ 10 then "Even function (f(-x) = f(x))"
      else if |testVal + testNegVal| < 1 / 10 ^ 10 then "Odd function (f(-x) = -f(x))"
      else "No obvious symmetry"
    | _, _ => "No obvious symmetry"
  else "No obvious symmetry"

/-- `analyzeProperties` of `mathAnalysis.ts`. -/
def analyzeProperties (H : HostCaps) (parsedExpr : ParsedExpression) :
    FunctionProperties :=
  { type := familyOf parsedExpr.node.render
    vars := parsedExpr.vars
    dimension := parsedExpr.vars.length
    symmetry := symmetryOf H parsedExpr
    continuity := "Continuous (assumed)"
    domain := "Real numbers (assumed)" }

/-- `analyzeExpression` of `mathAnalysis.ts`. -/
def analyzeExpression (H : HostCaps) (parsedExpr : ParsedExpression)
    (xMin xMax yMin yMax : ℚ) : AnalysisResult :=
  let derivatives := calculateDerivatives H parsedExpr
  let criticalPoints := findCriticalPoints H parsedExpr derivatives xMin xMax yMin yMax
  let limits := calculateLimits parsedExpr
  let properties := analyzeProperties H parsedExpr
  ⟨derivatives, criticalPoints, limits, properties⟩

/- ### Concrete hosts and trees used for witnesses and counterexamples -/

/-- The AST mathjs builds for `sin*(x)*cos*(y)` (the normalizer's output
for `sin(x)*cos(y)`): a left-associated product of four symbols. -/
def sinCosTree : MathNode :=
  .mul (.mul (.mul (.sym "sin") (.sym "x")) (.sym "cos")) (.sym "y")

/-- The AST of `exp(sin(x))`. -/
def expSinNode : MathNode := .call "exp" (.call "sin" (.sym "x"))

/-- A parsed `exp(sin(x))`. -/
def pExpSin : ParsedExpression := ⟨expSinNode, ["x"], true, none⟩

/-- A parsed `x ^ 2 + y ^ 2`. -/
def pSq : ParsedExpression :=
  ⟨.add (.pow (.sym "x") (.num 2)) (.pow (.sym "y") (.num 2)), ["x", "y"], true, none⟩

/-- A host whose parser always throws. -/
def hostFail : HostCaps :=
  ⟨fun _ => .error "Parse failure", fun _ _ => .thrown, fun _ _ => .thrown,
   fun _ => none, fun _ _ => .thrown, fun _ _ => .error "unsupported"⟩

/-- A host parser mapping a handful of literal strings to trees, enough to
exercise the classifier and the critical-point scan at concrete inputs. -/
def hostLit : HostCaps :=
  ⟨fun s =>
    if s = "2" then .ok (.num 2)
    else if s = "0" then .ok (.num 0)
    else if s = "nanD" then .ok (.div (.num 0) (.num 0))
    else if s = "2 * x" then .ok (.mul (.num 2) (.sym "x"))
    else if s = "2 * y" then .ok (.mul (.num 2) (.sym "y"))
    else .error "Unexpected token",
   fun _ _ => .thrown, fun _ _ => .thrown, fun _ => none, fun _ _ => .nonNum,
   fun _ _ => .error "unsupported"⟩

/-- A parsed `x * y` paired with `host6` below. -/
def p6 : ParsedExpression := ⟨.mul (.sym "x") (.sym "y"), ["x", "y"], true, none⟩

/-- A host whose differentiator succeeds on `x * y` and on the mixed
second derivative, but throws on the second `x` derivative: it shows that
the shared try block makes a failed `fxx` abort the `fxy` computation. -/
def host6 : HostCaps :=
  ⟨fun _ => .error "no parse", fun _ _ => .thrown, fun _ _ => .thrown,
   fun _ => none, fun _ _ => .thrown,
   fun n v =>
     if n = .mul (.sym "x") (.sym "y") then
       (if v = "x" then .ok (.sym "xDeriv") else .ok (.sym "yDeriv"))
     else if n = .sym "xDeriv" then
       (if v = "x" then .error "fxx fails" else .ok (.sym "mixedD"))
     else if n = .sym "yDeriv" then .ok (.sym "yyD")
     else .error "unsupported"⟩

/- ### Auxiliary lemmas -/

theorem addUnique_mem (acc : List String) (a s : String) :
    s ∈ addUnique acc a ↔ s ∈ acc ∨ s = a := by
  unfold addUnique
  by_cases h2 : acc.contains a = true
  · rw [if_pos h2]
    rw [List.contains, List.elem_iff] at h2
    constructor
    · exact Or.inl
    · rintro (h | rfl)
      · exact h
      · exact h2
  · rw [if_neg h2]
    simp [List.mem_append]

theorem addUnique_nodup (acc : List String) (a : String) (h : acc.Nodup) :
    (addUnique acc a).Nodup := by
  unfold addUnique
  by_cases h2 : acc.contains a = true
  · rwa [if_pos h2]
  · rw [if_neg h2]
    rw [List.contains, List.elem_iff] at h2
    simp [List.nodup_append, h, h2]

theorem dedupFoldl_mem : ∀ (l acc : List String) (s : String),
    s ∈ l.foldl addUnique acc ↔ s ∈ acc ∨ s ∈ l
  | [], acc, s => by simp
  | a :: rest, acc, s => by
    rw [List.foldl_cons, dedupFoldl_mem rest (addUnique acc a) s, addUnique_mem,
      List.mem_cons]
    tauto

theorem dedupFoldl_nodup : ∀ (l acc : List String), acc.Nodup →
    (l.foldl addUnique acc).Nodup
  | [], _, h => h
  | a :: rest, acc, h =>
    dedupFoldl_nodup rest (addUnique acc a) (addUnique_nodup acc a h)

theorem dedupFirst_mem (l : List String) (s : String) :
    s ∈ dedupFirst l ↔ s ∈ l := by
  unfold dedupFirst; rw [dedupFoldl_mem]; simp

theorem dedupFirst_nodup (l : List String) : (dedupFirst l).Nodup :=
  dedupFoldl_nodup l [] List.nodup_nil

theorem charListLe_iff : ∀ a b : List Char,
    charListLe a b = true ↔ ¬ List.Lex (· < ·) b a
  | [], b => by
    simp only [charListLe, true_iff]
    intro h
    cases h
  | a :: as, [] => by
    rw [charListLe]
    exact iff_of_false (by simp) (not_not_intro List.Lex.nil)
  | a :: as, b :: bs => by
    rw [charListLe]
    by_cases h1 : a < b
    · rw [if_pos (show a.toNat < b.toNat from h1)]
      simp only [true_iff]
      intro h
      cases h with
      | cons h => exact lt_irrefl a h1
      | rel h => exact lt_asymm h1 h
    · by_cases h2 : b < a
      · rw [if_neg (show ¬ a.toNat < b.toNat from h1),
          if_pos (show b.toNat < a.toNat from h2)]
        exact iff_of_false (by simp) (not_not_intro (List.Lex.rel h2))
      · have heq : a = b := le_antisymm (not_lt.1 h2) (not_lt.1 h1)
        subst heq
        rw [if_neg (show ¬ a.toNat < a.toNat from h1),
          if_neg (show ¬ a.toNat < a.toNat from h2), charListLe_iff as bs]
        constructor
        · intro h hlex
          cases hlex with
          | cons h3 => exact h h3
          | rel h3 => exact lt_irrefl a h3
        · intro h h3
          exact h (List.Lex.cons h3)

theorem strLe_iff (a b : String) : strLe a b = true ↔ a ≤ b := by
  rw [String.le_iff_toList_le, ← not_lt]
  exact charListLe_iff a.data b.data

theorem strLe_total (a b : String) : strLe a b = true ∨ strLe b a = true := by
  rw [strLe_iff, strLe_iff]; exact le_total a b

theorem insertSorted_mem (s t : String) : ∀ l : List String,
    t ∈ insertSorted s l ↔ t = s ∨ t ∈ l
  | [] => by simp [insertSorted]
  | a :: rest => by
    rw [insertSorted]
    by_cases h : strLe s a = true
    · rw [if_pos h]
      simp only [List.mem_cons]
    · rw [if_neg h]
      simp only [List.mem_cons, insertSorted_mem s t rest]
      tauto

theorem insertSorted_sorted (s : String) : ∀ l : List String,
    l.Sorted (fun a b : String => a ≤ b) →
    (insertSorted s l).Sorted (fun a b : String => a ≤ b)
  | [], _ => by simp [insertSorted]
  | a :: rest, h => by
    rw [insertSorted]
    rw [List.sorted_cons] at h
    by_cases hle : strLe s a = true
    · rw [if_pos hle, List.sorted_cons]
      refine ⟨?_, List.sorted_cons.2 h⟩
      intro b hb
      rcases List.mem_cons.1 hb with rfl | hb
      · exact (strLe_iff s b).1 hle
      · exact le_trans ((strLe_iff s a).1 hle) (h.1 b hb)
    · rw [if_neg hle, List.sorted_cons]
      have hsa : a ≤ s := by
        rcases strLe_total s a with h1 | h1
        · exact absurd h1 hle
        · exact (strLe_iff a s).1 h1
      refine ⟨?_, insertSorted_sorted s rest h.2⟩
      intro b hb
      rcases (insertSorted_mem s b rest).1 hb with rfl | hb
      · exact hsa
      · exact h.1 b hb

theorem sortStrings_sorted : ∀ l : List String,
    (sortStrings l).Sorted (fun a b : String => a ≤ b)
  | [] => by simp [sortStrings]
  | a :: rest => insertSorted_sorted a (sortStrings rest) (sortStrings_sorted rest)

theorem sortStrings_mem (t : String) : ∀ l : List String, t ∈ sortStrings l ↔ t ∈ l
  | [] => Iff.rfl
  | a :: rest => by
    rw [sortStrings, insertSorted_mem, sortStrings_mem t rest, List.mem_cons]

theorem insertSorted_nodup (s : String) : ∀ l : List String, l.Nodup → s ∉ l →
    (insertSorted s l).Nodup
  | [], _, _ => List.nodup_singleton s
  | a :: rest, h, hs => by
    rw [insertSorted]
    by_cases hle : strLe s a = true
    · rw [if_pos hle]; exact List.nodup_cons.2 ⟨hs, h⟩
    · rw [if_neg hle]
      rw [List.nodup_cons] at h
      refine List.nodup_cons.2 ⟨?_, insertSorted_nodup s rest h.2 ?_⟩
      · rw [insertSorted_mem]
        rintro (rfl | hmem)
        · exact hs (List.mem_cons_self a rest)
        · exact h.1 hmem
      · intro hmem; exact hs (List.mem_cons_of_mem a hmem)

theorem sortStrings_nodup : ∀ l : List String, l.Nodup → (sortStrings l).Nodup
  | [], h => h
  | a :: rest, h => by
    rw [List.nodup_cons] at h
    refine insertSorted_nodup a (sortStrings rest) (sortStrings_nodup rest h.2) ?_
    rw [sortStrings_mem]
    exact h.1

theorem extractVariables_mem (node : MathNode) (s : String) :
    s ∈ extractVariables node ↔ s ∈ symbolLeaves node ∧ keepAsVariable s = true := by
  unfold extractVariables
  rw [sortStrings_mem, dedupFirst_mem, List.mem_filter]

theorem extractVariables_sorted (node : MathNode) :
    (extractVariables node).Sorted (fun a b : String => a ≤ b) :=
  sortStrings_sorted _

theorem extractVariables_nodup (node : MathNode) : (extractVariables node).Nodup :=
  sortStrings_nodup _ (dedupFirst_nodup _)

/- ### Claim theorems -/

/-- C8: the normalizer produces the literal outputs the spec fixes:
`2x` becomes `2*x`; `z = x^2` keeps only the right side `x^2`; `x+1=y` is
rewritten to the implicit relation `(x+1) - (y)`; `x^2+y^2` is unchanged. -/
theorem C8_normalizer_literal_outputs :
    normalizeEquation "2x" = "2*x" ∧
    normalizeEquation "z = x^2" = "x^2" ∧
    normalizeEquation "x+1=y" = "(x+1) - (y)" ∧
    normalizeEquation "x^2+y^2" = "x^2+y^2" := by
  refine ⟨?_, ?_, ?_, ?_⟩ <;> decide

/-- C7: variable extraction returns exactly the symbol leaves of the tree
whose name is a single ASCII letter or `pi`/`e`, minus the fixed exclusion
set, deduplicated and sorted lexicographically; and parsing the input
`sin(x)*cos(y)` yields exactly the variables `["x", "y"]`. -/
theorem C7_variable_extraction :
    (∀ (node : MathNode) (s : String),
      s ∈ extractVariables node ↔
        s ∈ symbolLeaves node ∧
          ((isSingleLetter s = true ∨ s = "pi" ∨ s = "e") ∧ s ∉ excludedNames)) ∧
    (∀ node : MathNode,
      (extractVariables node).Sorted (fun a b : String => a ≤ b) ∧
        (extractVariables node).Nodup) ∧
    (∀ H : HostCaps, H.parseCap "sin*(x)*cos*(y)" = .ok sinCosTree →
      (parseMathExpression H "sin(x)*cos(y)").vars = ["x", "y"]) := by
  refine ⟨?_, ?_, ?_⟩
  · intro node s
    rw [extractVariables_mem]
    have hk : keepAsVariable s = true ↔
        ((isSingleLetter s = true ∨ s = "pi" ∨ s = "e") ∧ s ∉ excludedNames) := by
      simp [keepAsVariable, List.contains, List.elem_iff]
    rw [hk]
  · exact fun node => ⟨extractVariables_sorted node, extractVariables_nodup node⟩
  · intro H h
    have hn : normalizeEquation "sin(x)*cos(y)" = "sin*(x)*cos*(y)" := by decide
    unfold parseMathExpression
    rw [hn]
    show (match H.parseCap "sin*(x)*cos*(y)" with
      | Except.ok node => (⟨node, extractVariables node, true, none⟩ : ParsedExpression)
      | Except.error msg => ⟨.num 0, [], false, some msg⟩).vars = ["x", "y"]
    rw [h]
    show extractVariables sinCosTree = ["x", "y"]
    decide

/-- Witness for C7: a host parser that returns the `sin*(x)*cos*(y)` tree
satisfies the hypothesis, and the variables come out `["x", "y"]`. -/
theorem C7_variable_extraction_witness :
    (parseMathExpression
      ⟨fun _ => .ok sinCosTree, fun _ _ => .thrown, fun _ _ => .thrown,
       fun _ => none, fun _ _ => .thrown, fun _ _ => .error "unsupported"⟩
      "sin(x)*cos(y)").vars = ["x", "y"] :=
  C7_variable_extraction.2.2 _ rfl

/-- C1: `parseMathExpression` is total; on any parse failure it returns
`isValid = false`, the supplied error message, an empty variable list and
the constant-zero placeholder tree, and every downstream stage still
returns a value on that record (evaluation gives NaN, differentiation an
empty set, the critical-point scan an empty list, `analyzeExpression` the
corresponding aggregate). -/
theorem C1_parse_failure_total :
    ∀ (H : HostCaps) (equation msg : String)
      (scope : List (String × ℚ)) (xMin xMax yMin yMax : ℚ),
      H.parseCap (normalizeEquation equation) = .error msg →
      (parseMathExpression H equation).isValid = false ∧
      (parseMathExpression H equation).errorMessage = some msg ∧
      (parseMathExpression H equation).vars = [] ∧
      (parseMathExpression H equation).node = .num 0 ∧
      evaluateExpression H (parseMathExpression H equation) scope = none ∧
      calculateDerivatives H (parseMathExpression H equation) = {} ∧
      findCriticalPoints H (parseMathExpression H equation)
        (calculateDerivatives H (parseMathExpression H equation)) xMin xMax yMin yMax = [] ∧
      (analyzeExpression H (parseMathExpression H equation) xMin xMax yMin yMax).criticalPoints
        = [] ∧
      (analyzeExpression H (parseMathExpression H equation) xMin xMax yMin yMax).derivatives
        = {} := by
  intro H equation msg scope xMin xMax yMin yMax h
  have hP : parseMathExpression H equation = ⟨.num 0, [], false, some msg⟩ := by
    unfold parseMathExpression
    show (match H.parseCap (normalizeEquation equation) with
      | Except.ok node => (⟨node, extractVariables node, true, none⟩ : ParsedExpression)
      | Except.error msg => ⟨.num 0, [], false, some msg⟩) = _
    rw [h]
  rw [hP]
  refine ⟨rfl, rfl, rfl, rfl, rfl, rfl, rfl, ?_, ?_⟩ <;>
    simp [analyzeExpression, calculateDerivatives, findCriticalPoints]

/-- Witness for C1 at a host whose parser always throws. -/
theorem C1_parse_failure_total_witness :
    (parseMathExpression hostFail "2x").isValid = false ∧
    (parseMathExpression hostFail "2x").errorMessage = some "Parse failure" ∧
    (parseMathExpression hostFail "2x").vars = [] ∧
    (parseMathExpression hostFail "2x").node = .num 0 ∧
    evaluateExpression hostFail (parseMathExpression hostFail "2x") [] = none ∧
    calculateDerivatives hostFail (parseMathExpression hostFail "2x") = {} ∧
    findCriticalPoints hostFail (parseMathExpression hostFail "2x")
      (calculateDerivatives hostFail (parseMathExpression hostFail "2x")) 0 1 0 1 = [] ∧
    (analyzeExpression hostFail (parseMathExpression hostFail "2x") 0 1 0 1).criticalPoints
      = [] ∧
    (analyzeExpression hostFail (parseMathExpression hostFail "2x") 0 1 0 1).derivatives
      = {} :=
  C1_parse_failure_total hostFail "2x" "Parse failure" [] 0 1 0 1 rfl

/-- C2: `evaluateExpression` always returns a value (`some` finite number
or `none` for NaN) and returns NaN on an invalid expression, a thrown
evaluation (which covers a missing binding), a non-finite value, or a
non-numeric result; a finite number comes out only from a valid expression
whose host evaluation is that number. -/
theorem C2_evaluate_total :
    ∀ (H : HostCaps) (p : ParsedExpression) (scope : List (String × ℚ)),
      (p.isValid = false → evaluateExpression H p scope = none) ∧
      (rawEval H scope p.node = .thrown → evaluateExpression H p scope = none) ∧
      (rawEval H scope p.node = .nan → evaluateExpression H p scope = none) ∧
      (rawEval H scope p.node = .nonNum → evaluateExpression H p scope = none) ∧
      (∀ name, p.node = .sym name → scope.lookup name = none →
        H.consts name = none → evaluateExpression H p scope = none) ∧
      (∀ q, evaluateExpression H p scope = some q →
        p.isValid = true ∧ rawEval H scope p.node = .num q) := by
  intro H p scope
  unfold evaluateExpression
  by_cases hv : p.isValid
  · rw [if_pos hv]
    refine ⟨fun h => absurd h (by simp [hv]), ?_, ?_, ?_, ?_, ?_⟩
    · intro h; rw [h]
    · intro h; rw [h]
    · intro h; rw [h]
    · intro name hnode hlook hconst
      have : rawEval H scope p.node = .thrown := by
        rw [hnode]
        unfold rawEval
        rw [hlook, hconst]
      rw [this]
    · intro q h
      refine ⟨hv, ?_⟩
      revert h
      cases hr : rawEval H scope p.node <;> simp
  · rw [if_neg hv]
    refine ⟨fun _ => rfl, fun _ => rfl, fun _ => rfl, fun _ => rfl,
      fun _ _ _ _ => rfl, fun q h => absurd h (by simp)⟩

/-- Witness for C2: an unbound symbol (missing binding) evaluates to NaN. -/
theorem C2_evaluate_total_witness :
    evaluateExpression hostLit ⟨.sym "x", ["x"], true, none⟩ [] = none :=
  (C2_evaluate_total hostLit ⟨.sym "x", ["x"], true, none⟩ []).2.2.2.2.1 "x" rfl rfl rfl

/-- C9: `analyzeProperties` assigns the function family from the rendered
normalized expression in fixed precedence — trig names first, then `exp`,
then `log`, then the digits/operators/`x`/`y`/parentheses test, else
`General`; in particular any expression whose text contains both `exp` and
`sin` (such as `exp(sin(x))`) is `Trigonometric`, not `Exponential`. -/
theorem C9_family_precedence :
    (∀ (H : HostCaps) (p : ParsedExpression),
      ((strContains p.node.render "sin" || strContains p.node.render "cos" ||
          strContains p.node.render "tan") = true →
        (analyzeProperties H p).type = "Trigonometric") ∧
      ((strContains p.node.render "sin" || strContains p.node.render "cos" ||
          strContains p.node.render "tan") = false →
        strContains p.node.render "exp" = true →
        (analyzeProperties H p).type = "Exponential") ∧
      ((strContains p.node.render "sin" || strContains p.node.render "cos" ||
          strContains p.node.render "tan") = false →
        strContains p.node.render "exp" = false →
        strContains p.node.render "log" = true →
        (analyzeProperties H p).type = "Logarithmic") ∧
      ((strContains p.node.render "sin" || strContains p.node.render "cos" ||
          strContains p.node.render "tan") = false →
        strContains p.node.render "exp" = false →
        strContains p.node.render "log" = false →
        polyTest (stripWs p.node.render.data) = true →
        (analyzeProperties H p).type = "Polynomial") ∧
      ((strContains p.node.render "sin" || strContains p.node.render "cos" ||
          strContains p.node.render "tan") = false →
        strContains p.node.render "exp" = false →
        strContains p.node.render "log" = false →
        polyTest (stripWs p.node.render.data) = false →
        (analyzeProperties H p).type = "General")) ∧
    (∀ (H : HostCaps) (p : ParsedExpression),
      strContains p.node.render "exp" = true →
      strContains p.node.render "sin" = true →
      (analyzeProperties H p).type = "Trigonometric") := by
  have key : ∀ (H : HostCaps) (p : ParsedExpression),
      (analyzeProperties H p).type = familyOf p.node.render := fun _ _ => rfl
  constructor
  · intro H p
    simp only [key]
    unfold familyOf
    refine ⟨?_, ?_, ?_, ?_, ?_⟩
    · intro h; rw [if_pos h]
    · intro h1 h2; rw [if_neg (by simp [h1]), if_pos h2]
    · intro h1 h2 h3; rw [if_neg (by simp [h1]), if_neg (by simp [h2]), if_pos h3]
    · intro h1 h2 h3 h4
      rw [if_neg (by simp [h1]), if_neg (by simp [h2]), if_neg (by simp [h3]), if_pos h4]
    · intro h1 h2 h3 h4
      rw [if_neg (by simp [h1]), if_neg (by simp [h2]), if_neg (by simp [h3]),
        if_neg (by simp [h4])]
  · intro H p hexp hsin
    rw [key H p]
    unfold familyOf
    rw [if_pos (by simp [hsin])]

/-- Witness for C9: `exp(sin(x))` is classified `Trigonometric`. -/
theorem C9_family_precedence_witness :
    (analyzeProperties hostFail pExpSin).type = "Trigonometric" :=
  C9_family_precedence.2 hostFail pExpSin (by decide) (by decide)

/-- With all strings present, parsed, and evaluating to finite numbers,
the classifier is the literal discriminant test. -/
theorem jnMul_fin (a b : ℚ) : jnMul (.fin a) (.fin b) = .fin (a * b) := rfl

theorem jnSub_fin (a b : ℚ) : jnSub (.fin a) (.fin b) = .fin (a - b) := by
  show JSNum.fin (a + -b) = .fin (a - b)
  rw [← sub_eq_add_neg]

theorem jnGt_fin (q r : ℚ) : jnGt (.fin q) r = decide (r < q) := rfl

theorem jnLt_fin (q r : ℚ) : jnLt (.fin q) r = decide (q < r) := rfl

theorem jnMul_nan_left (b : JSNum) : jnMul .nan b = .nan := by cases b <;> rfl

theorem jnMul_nan_right (a : JSNum) : jnMul a .nan = .nan := by cases a <;> rfl

theorem jnAdd_nan_left (b : JSNum) : jnAdd .nan b = .nan := by cases b <;> rfl

theorem jnAdd_nan_right (a : JSNum) : jnAdd a .nan = .nan := by cases a <;> rfl

theorem jnSub_nan_left (b : JSNum) : jnSub .nan b = .nan := jnAdd_nan_left _

theorem jnSub_nan_right (a : JSNum) : jnSub a .nan = .nan := jnAdd_nan_right a

theorem classify_num_spec (H : HostCaps) (d : DerivativeData) (x y : ℚ)
    (sxx syy sxy : String) (nxx nyy nxy : MathNode) (a b c : ℚ)
    (hfxx : d.fxx = some sxx) (hfyy : d.fyy = some syy) (hfxy : d.fxy = some sxy)
    (hp1 : H.parseCap sxx = .ok nxx) (hp2 : H.parseCap syy = .ok nyy)
    (hp3 : H.parseCap sxy = .ok nxy)
    (he1 : rawEval H [("x", x), ("y", y)] nxx = .num a)
    (he2 : rawEval H [("x", x), ("y", y)] nyy = .num b)
    (he3 : rawEval H [("x", x), ("y", y)] nxy = .num c) :
    classifyCriticalPoint H d x y =
      (if 0 < a * b - c * c then (if 0 < a then .minimum else .maximum)
       else if a * b - c * c < 0 then .saddle else .unknown) := by
  simp only [classifyCriticalPoint, hfxx, hfyy, hfxy, classifyCore, hp1, hp2, hp3,
    he1, he2, he3, evalNum, jnMul_fin, jnSub_fin, jnGt_fin, jnLt_fin]
  by_cases hD : 0 < a * b - c * c
  · rw [if_pos (by simpa using hD), if_pos hD]
    by_cases ha : 0 < a
    · rw [if_pos (by simpa using ha), if_pos ha]
    · rw [if_neg (by simpa using ha), if_neg ha]
  · rw [if_neg (by simpa using hD), if_neg hD]
    by_cases hD2 : a * b - c * c < 0
    · rw [if_pos (by simpa using hD2), if_pos hD2]
    · rw [if_neg (by simpa using hD2), if_neg hD2]

/-- C4: the classifier returns `unknown` when a second derivative is
absent, when re-parsing one of them fails, or when an evaluation throws;
with finite values `a = fxx(x,y)`, `b = fyy(x,y)`, `c = fxy(x,y)` and
discriminant `D = a*b - c*c` it returns `minimum` when `D > 0` and
`a > 0`, `maximum` when `D > 0` and `a ≤ 0`, `saddle` when `D < 0`, and
`unknown` when `D = 0`. -/
theorem C4_classifier :
    ∀ (H : HostCaps) (d : DerivativeData) (x y : ℚ),
      ((d.fxx = none ∨ d.fyy = none ∨ d.fxy = none) →
        classifyCriticalPoint H d x y = .unknown) ∧
      (∀ sxx syy sxy, d.fxx = some sxx → d.fyy = some syy → d.fxy = some sxy →
        ((∃ e, H.parseCap sxx = .error e) ∨ (∃ e, H.parseCap syy = .error e) ∨
          (∃ e, H.parseCap sxy = .error e)) →
        classifyCriticalPoint H d x y = .unknown) ∧
      (∀ sxx syy sxy nxx nyy nxy, d.fxx = some sxx → d.fyy = some syy →
        d.fxy = some sxy → H.parseCap sxx = .ok nxx → H.parseCap syy = .ok nyy →
        H.parseCap sxy = .ok nxy →
        (rawEval H [("x", x), ("y", y)] nxx = .thrown ∨
         rawEval H [("x", x), ("y", y)] nyy = .thrown ∨
         rawEval H [("x", x), ("y", y)] nxy = .thrown) →
        classifyCriticalPoint H d x y = .unknown) ∧
      (∀ sxx syy sxy nxx nyy nxy (a b c : ℚ), d.fxx = some sxx → d.fyy = some syy →
        d.fxy = some sxy → H.parseCap sxx = .ok nxx → H.parseCap syy = .ok nyy →
        H.parseCap sxy = .ok nxy →
        rawEval H [("x", x), ("y", y)] nxx = .num a →
        rawEval H [("x", x), ("y", y)] nyy = .num b →
        rawEval H [("x", x), ("y", y)] nxy = .num c →
        (0 < a * b - c * c → 0 < a → classifyCriticalPoint H d x y = .minimum) ∧
        (0 < a * b - c * c → a ≤ 0 → classifyCriticalPoint H d x y = .maximum) ∧
        (a * b - c * c < 0 → classifyCriticalPoint H d x y = .saddle) ∧
        (a * b - c * c = 0 → classifyCriticalPoint H d x y = .unknown)) := by
  intro H d x y
  refine ⟨?_, ?_, ?_, ?_⟩
  · rintro (h | h | h) <;>
      · rcases d with ⟨fx, fy, fxx, fyy, fxy⟩
        cases fxx <;> cases fyy <;> cases fxy <;>
          simp_all [classifyCriticalPoint]
  · intro sxx syy sxy hfxx hfyy hfxy herr
    rcases herr with ⟨e, he⟩ | ⟨e, he⟩ | ⟨e, he⟩
    · simp [classifyCriticalPoint, hfxx, hfyy, hfxy, classifyCore, he]
    · rcases hxx : H.parseCap sxx with e1 | nxx <;>
        simp [classifyCriticalPoint, hfxx, hfyy, hfxy, classifyCore, hxx, he]
    · rcases hxx : H.parseCap sxx with e1 | nxx <;>
        rcases hyy : H.parseCap syy with e2 | nyy <;>
        simp [classifyCriticalPoint, hfxx, hfyy, hfxy, classifyCore, hxx, hyy, he]
  · intro sxx syy sxy nxx nyy nxy hfxx hfyy hfxy hp1 hp2 hp3 hth
    rcases hth with hth | hth | hth
    · simp [classifyCriticalPoint, hfxx, hfyy, hfxy, classifyCore, hp1, hp2, hp3,
        hth, evalNum]
    · rcases hv1 : rawEval H [("x", x), ("y", y)] nxx with q | _ | _ | _ | _ | _ <;>
        simp [classifyCriticalPoint, hfxx, hfyy, hfxy, classifyCore, hp1, hp2, hp3,
          hv1, hth, evalNum]
    · rcases hv1 : rawEval H [("x", x), ("y", y)] nxx with q | _ | _ | _ | _ | _ <;>
        rcases hv2 : rawEval H [("x", x), ("y", y)] nyy with q2 | _ | _ | _ | _ | _ <;>
        simp [classifyCriticalPoint, hfxx, hfyy, hfxy, classifyCore, hp1, hp2, hp3,
          hv1, hv2, hth, evalNum]
  · intro sxx syy sxy nxx nyy nxy a b c hfxx hfyy hfxy hp1 hp2 hp3 he1 he2 he3
    have hs := classify_num_spec H d x y sxx syy sxy nxx nyy nxy a b c
      hfxx hfyy hfxy hp1 hp2 hp3 he1 he2 he3
    refine ⟨?_, ?_, ?_, ?_⟩
    · intro hD ha; rw [hs, if_pos hD, if_pos ha]
    · intro hD ha; rw [hs, if_pos hD, if_neg (not_lt.2 ha)]
    · intro hD; rw [hs, if_neg (by linarith), if_pos hD]
    · intro hD; rw [hs, if_neg (by linarith), if_neg (by linarith)]

/-- Witness for C4: `fxx = 2`, `fyy = 2`, `fxy = 0` at the origin gives
`D = 4 > 0`, `fxx > 0`, hence `minimum`. -/
theorem C4_classifier_witness :
    classifyCriticalPoint hostLit ⟨none, none, some "2", some "2", some "0"⟩ 0 0
      = .minimum :=
  ((C4_classifier hostLit ⟨none, none, some "2", some "2", some "0"⟩ 0 0).2.2.2
    "2" "2" "0" (.num 2) (.num 2) (.num 0) 2 2 0 rfl rfl rfl rfl rfl rfl rfl rfl rfl).1
    (by norm_num) (by norm_num)

/-- C10: when the three second-derivative strings are present and parse,
and at least one of them evaluates to NaN — `EvalOut.nan`, the genuine
not-a-number result (e.g. `0/0`), as opposed to the ordered infinities —
every discriminant comparison fails and the classification is `unknown`. -/
theorem C10_nan_gives_unknown :
    ∀ (H : HostCaps) (d : DerivativeData) (x y : ℚ)
      (sxx syy sxy : String) (nxx nyy nxy : MathNode),
      d.fxx = some sxx → d.fyy = some syy → d.fxy = some sxy →
      H.parseCap sxx = .ok nxx → H.parseCap syy = .ok nyy →
      H.parseCap sxy = .ok nxy →
      (rawEval H [("x", x), ("y", y)] nxx = .nan ∨
       rawEval H [("x", x), ("y", y)] nyy = .nan ∨
       rawEval H [("x", x), ("y", y)] nxy = .nan) →
      classifyCriticalPoint H d x y = .unknown := by
  intro H d x y sxx syy sxy nxx nyy nxy hfxx hfyy hfxy hp1 hp2 hp3 hnan
  have key : ∀ va vb vc : JSNum,
      evalNum (rawEval H [("x", x), ("y", y)] nxx) = .ok va →
      evalNum (rawEval H [("x", x), ("y", y)] nyy) = .ok vb →
      evalNum (rawEval H [("x", x), ("y", y)] nxy) = .ok vc →
      (va = .nan ∨ vb = .nan ∨ vc = .nan) →
      classifyCriticalPoint H d x y = .unknown := by
    intro va vb vc h1 h2 h3 hn
    have hD : jnSub (jnMul va vb) (jnMul vc vc) = .nan := by
      rcases hn with rfl | rfl | rfl
      · rw [jnMul_nan_left, jnSub_nan_left]
      · rw [jnMul_nan_right, jnSub_nan_left]
      · rw [jnMul_nan_left, jnSub_nan_right]
    simp [classifyCriticalPoint, hfxx, hfyy, hfxy, classifyCore, hp1, hp2, hp3,
      h1, h2, h3, hD, jnGt, jnLt]
  rcases hnan with hn | hn | hn
  · have h1 : evalNum (rawEval H [("x", x), ("y", y)] nxx) = .ok .nan := by
      rw [hn]
      rfl
    rcases h2 : evalNum (rawEval H [("x", x), ("y", y)] nyy) with u | vb
    · simp [classifyCriticalPoint, hfxx, hfyy, hfxy, classifyCore, hp1, hp2, hp3, h1, h2]
    rcases h3 : evalNum (rawEval H [("x", x), ("y", y)] nxy) with u | vc
    · simp [classifyCriticalPoint, hfxx, hfyy, hfxy, classifyCore, hp1, hp2, hp3,
        h1, h2, h3]
    exact key _ _ _ h1 h2 h3 (Or.inl rfl)
  · have h2 : evalNum (rawEval H [("x", x), ("y", y)] nyy) = .ok .nan := by
      rw [hn]
      rfl
    rcases h1 : evalNum (rawEval H [("x", x), ("y", y)] nxx) with u | va
    · simp [classifyCriticalPoint, hfxx, hfyy, hfxy, classifyCore, hp1, hp2, hp3, h1]
    rcases h3 : evalNum (rawEval H [("x", x), ("y", y)] nxy) with u | vc
    · simp [classifyCriticalPoint, hfxx, hfyy, hfxy, classifyCore, hp1, hp2, hp3,
        h1, h2, h3]
    exact key _ _ _ h1 h2 h3 (Or.inr (Or.inl rfl))
  · have h3 : evalNum (rawEval H [("x", x), ("y", y)] nxy) = .ok .nan := by
      rw [hn]
      rfl
    rcases h1 : evalNum (rawEval H [("x", x), ("y", y)] nxx) with u | va
    · simp [classifyCriticalPoint, hfxx, hfyy, hfxy, classifyCore, hp1, hp2, hp3, h1]
    rcases h2 : evalNum (rawEval H [("x", x), ("y", y)] nyy) with u | vb
    · simp [classifyCriticalPoint, hfxx, hfyy, hfxy, classifyCore, hp1, hp2, hp3,
        h1, h2]
    exact key _ _ _ h1 h2 h3 (Or.inr (Or.inr rfl))

/-- Witness for C10: `fxx` is `0/0`, which evaluates to NaN (JavaScript
`0/0` is NaN, not an infinity), so the point is classified `unknown`. -/
theorem C10_nan_gives_unknown_witness :
    classifyCriticalPoint hostLit ⟨none, none, some "nanD", some "2", some "0"⟩ 0 0
      = .unknown :=
  C10_nan_gives_unknown hostLit ⟨none, none, some "nanD", some "2", some "0"⟩ 0 0
    "nanD" "2" "0" (.div (.num 0) (.num 0)) (.num 2) (.num 0)
    rfl rfl rfl rfl rfl rfl
    (Or.inl (by norm_num [rawEval, binArith, EvalOut.toJN, jnDiv, JSNum.toEval]))

theorem rangeMap_getD {α : Type} (f : ℕ → α) (N i : ℕ) (d : α) (hi : i < N) :
    ((List.range N).map f).getD i d = f i := by
  simp [List.getD_eq_getElem?_getD, List.getElem?_map, List.getElem?_range, hi]

theorem cast_le_sub_one {N j : ℕ} (hj : j < N) : (j : ℚ) ≤ (N : ℚ) - 1 := by
  have h : ((j + 1 : ℕ) : ℚ) ≤ (N : ℚ) := by exact_mod_cast Nat.succ_le_of_lt hj
  push_cast at h
  linarith

/-- C3: for valid bounds and resolution at least 2, the mesh is three
N-by-N grids with `x[i][j] = xMin + j*xStep`, `y[i][j] = yMin + i*yStep`,
`x` non-decreasing in `j` and constant across `i`, all coordinates inside
the requested rectangle, and each `z[i][j]` the evaluation at the grid
point (with non-finite values already the `none` sentinel). -/
theorem C3_mesh_invariants :
    ∀ (H : HostCaps) (p : ParsedExpression) (xMin xMax yMin yMax : ℚ) (N : ℕ),
      p.isValid = true → xMin ≤ xMax → yMin ≤ yMax → 2 ≤ N →
      ((createMeshData H p xMin xMax yMin yMax N).x.length = N ∧
       (createMeshData H p xMin xMax yMin yMax N).y.length = N ∧
       (createMeshData H p xMin xMax yMin yMax N).z.length = N) ∧
      (∀ i, i < N →
        ((createMeshData H p xMin xMax yMin yMax N).x.getD i []).length = N ∧
        ((createMeshData H p xMin xMax yMin yMax N).y.getD i []).length = N ∧
        ((createMeshData H p xMin xMax yMin yMax N).z.getD i []).length = N) ∧
      (∀ i j, i < N → j < N →
        (((createMeshData H p xMin xMax yMin yMax N).x.getD i []).getD j 0
            = xMin + (j : ℚ) * ((xMax - xMin) / ((N : ℚ) - 1)) ∧
         ((createMeshData H p xMin xMax yMin yMax N).y.getD i []).getD j 0
            = yMin + (i : ℚ) * ((yMax - yMin) / ((N : ℚ) - 1))) ∧
        (∀ j2, j ≤ j2 → j2 < N →
          ((createMeshData H p xMin xMax yMin yMax N).x.getD i []).getD j 0 ≤
            ((createMeshData H p xMin xMax yMin yMax N).x.getD i []).getD j2 0) ∧
        (∀ i2, i2 < N →
          ((createMeshData H p xMin xMax yMin yMax N).x.getD i []).getD j 0 =
            ((createMeshData H p xMin xMax yMin yMax N).x.getD i2 []).getD j 0) ∧
        (xMin ≤ ((createMeshData H p xMin xMax yMin yMax N).x.getD i []).getD j 0 ∧
         ((createMeshData H p xMin xMax yMin yMax N).x.getD i []).getD j 0 ≤ xMax ∧
         yMin ≤ ((createMeshData H p xMin xMax yMin yMax N).y.getD i []).getD j 0 ∧
         ((createMeshData H p xMin xMax yMin yMax N).y.getD i []).getD j 0 ≤ yMax) ∧
        ((createMeshData H p xMin xMax yMin yMax N).z.getD i []).getD j none =
          evaluateExpression H p
            [("x", xMin + (j : ℚ) * ((xMax - xMin) / ((N : ℚ) - 1))),
             ("y", yMin + (i : ℚ) * ((yMax - yMin) / ((N : ℚ) - 1)))]) := by
  intro H p xMin xMax yMin yMax N _hv hx hy hN
  have hN1 : (0 : ℚ) < (N : ℚ) - 1 := by
    have : ((2 : ℕ) : ℚ) ≤ (N : ℚ) := by exact_mod_cast hN
    push_cast at this
    linarith
  have hxStep : 0 ≤ (xMax - xMin) / ((N : ℚ) - 1) :=
    div_nonneg (by linarith) (le_of_lt hN1)
  have hyStep : 0 ≤ (yMax - yMin) / ((N : ℚ) - 1) :=
    div_nonneg (by linarith) (le_of_lt hN1)
  have hxFull : ((N : ℚ) - 1) * ((xMax - xMin) / ((N : ℚ) - 1)) = xMax - xMin := by
    field_simp
  have hyFull : ((N : ℚ) - 1) * ((yMax - yMin) / ((N : ℚ) - 1)) = yMax - yMin := by
    field_simp
  have hxg : ∀ i j, i < N → j < N →
      ((createMeshData H p xMin xMax yMin yMax N).x.getD i []).getD j 0
        = xMin + (j : ℚ) * ((xMax - xMin) / ((N : ℚ) - 1)) := by
    intro i j hi hj
    unfold createMeshData
    rw [rangeMap_getD _ N i [] hi, rangeMap_getD _ N j 0 hj]
  have hyg : ∀ i j, i < N → j < N →
      ((createMeshData H p xMin xMax yMin yMax N).y.getD i []).getD j 0
        = yMin + (i : ℚ) * ((yMax - yMin) / ((N : ℚ) - 1)) := by
    intro i j hi hj
    unfold createMeshData
    rw [rangeMap_getD _ N i [] hi, rangeMap_getD _ N j 0 hj]
  refine ⟨⟨?_, ?_, ?_⟩, ?_, ?_⟩
  · simp [createMeshData]
  · simp [createMeshData]
  · simp [createMeshData]
  · intro i hi
    unfold createMeshData
    rw [rangeMap_getD _ N i [] hi, rangeMap_getD _ N i [] hi, rangeMap_getD _ N i [] hi]
    simp
  · intro i j hi hj
    refine ⟨⟨hxg i j hi hj, hyg i j hi hj⟩, ?_, ?_, ?_, ?_⟩
    · intro j2 hjj hj2
      rw [hxg i j hi hj, hxg i j2 hi hj2]
      have : (j : ℚ) ≤ (j2 : ℚ) := by exact_mod_cast hjj
      nlinarith
    · intro i2 hi2
      rw [hxg i j hi hj, hxg i2 j hi2 hj]
    · have hjb : (j : ℚ) ≤ (N : ℚ) - 1 := cast_le_sub_one hj
      have hib : (i : ℚ) ≤ (N : ℚ) - 1 := cast_le_sub_one hi
      rw [hxg i j hi hj, hyg i j hi hj]
      have hj0 : (0 : ℚ) ≤ (j : ℚ) := by positivity
      have hi0 : (0 : ℚ) ≤ (i : ℚ) := by positivity
      refine ⟨by nlinarith, ?_, by nlinarith, ?_⟩
      · have h1 : (j : ℚ) * ((xMax - xMin) / ((N : ℚ) - 1)) ≤
            ((N : ℚ) - 1) * ((xMax - xMin) / ((N : ℚ) - 1)) :=
          mul_le_mul_of_nonneg_right hjb hxStep
        rw [hxFull] at h1
        linarith
      · have h1 : (i : ℚ) * ((yMax - yMin) / ((N : ℚ) - 1)) ≤
            ((N : ℚ) - 1) * ((yMax - yMin) / ((N : ℚ) - 1)) :=
          mul_le_mul_of_nonneg_right hib hyStep
        rw [hyFull] at h1
        linarith
    · unfold createMeshData
      rw [rangeMap_getD _ N i [] hi, rangeMap_getD _ N j none hj]

/-- Witness for C3 at `N = 2` on the unit square: the corner grid entries
take the stated values. -/
theorem C3_mesh_invariants_witness :
    ((createMeshData hostLit pSq 0 1 0 1 2).x.getD 1 []).getD 1 0
      = 0 + ((1 : ℕ) : ℚ) * ((1 - 0) / (((2 : ℕ) : ℚ) - 1)) ∧
    ((createMeshData hostLit pSq 0 1 0 1 2).y.getD 1 []).getD 1 0
      = 0 + ((1 : ℕ) : ℚ) * ((1 - 0) / (((2 : ℕ) : ℚ) - 1)) :=
  ((C3_mesh_invariants hostLit pSq 0 1 0 1 2 rfl (by norm_num) (by norm_num)
      (by norm_num)).2.2 1 1 (by norm_num) (by norm_num)).1

theorem scanCount_iff (lo hi : ℚ) (k : ℕ) :
    k < scanCount lo hi ↔ lo + (k : ℚ) * (1 / 2) ≤ hi := by
  unfold scanCount
  by_cases h : hi < lo
  · rw [if_pos h]
    constructor
    · intro hk; exact absurd hk (Nat.not_lt_zero k)
    · intro hk
      have h0 : (0 : ℚ) ≤ (k : ℚ) * (1 / 2) := by positivity
      linarith
  · rw [if_neg h]
    push_neg at h
    have h0 : (0 : ℤ) ≤ ⌊(hi - lo) * 2⌋ := by
      apply Int.floor_nonneg.2
      linarith
    rw [Nat.lt_succ_iff, Int.le_toNat h0, Int.le_floor]
    constructor
    · intro hk; push_cast at hk; linarith
    · intro hk; push_cast; linarith

theorem scanList_mem (lo hi q : ℚ) :
    q ∈ scanList lo hi ↔
      ∃ k : ℕ, q = lo + (k : ℚ) * (1 / 2) ∧ lo + (k : ℚ) * (1 / 2) ≤ hi := by
  unfold scanList
  rw [List.mem_map]
  constructor
  · rintro ⟨k, hk, rfl⟩
    exact ⟨k, rfl, (scanCount_iff lo hi k).1 (List.mem_range.1 hk)⟩
  · rintro ⟨k, rfl, hk⟩
    exact ⟨k, List.mem_range.2 ((scanCount_iff lo hi k).2 hk), rfl⟩

theorem evalNum_ok_fin (e : EvalOut) (q : ℚ) :
    evalNum e = .ok (.fin q) ↔ e = .num q := by
  cases e <;> simp [evalNum]

theorem jnLt_abs_fin (q b : ℚ) :
    jnLt (jnAbs (.fin q)) b = decide (|q| < b) := rfl

theorem candidateAt_spec (H : HostCaps) (p : ParsedExpression) (d : DerivativeData)
    (sfx sfy : String) (x y : ℚ) (cp : CriticalPoint) :
    candidateAt H p d sfx sfy x y = some cp ↔
      ∃ (nfx nfy : MathNode) (qx qy qz : ℚ),
        H.parseCap sfx = .ok nfx ∧ H.parseCap sfy = .ok nfy ∧
        rawEval H [("x", x), ("y", y)] nfx = .num qx ∧
        rawEval H [("x", x), ("y", y)] nfy = .num qy ∧
        |qx| < 1 / 10 ∧ |qy| < 1 / 10 ∧
        evaluateExpression H p [("x", x), ("y", y)] = some qz ∧
        cp = ⟨x, y, qz, classifyCriticalPoint H d x y⟩ := by
  constructor
  · intro h
    unfold candidateAt at h
    split at h
    case _ nfx nfy hp1 hp2 =>
      split at h
      case _ fxVal fyVal hv1 hv2 =>
        split at h
        case isTrue hcond =>
          split at h
          case _ qz hz =>
            rcases fxVal with qx | _ | _ | _
            rotate_left
            · exact absurd hcond (by simp [jnAbs, jnLt])
            · exact absurd hcond (by simp [jnAbs, jnLt])
            · exact absurd hcond (by simp [jnAbs, jnLt])
            rcases fyVal with qy | _ | _ | _
            rotate_left
            · exact absurd hcond (by simp [jnAbs, jnLt])
            · exact absurd hcond (by simp [jnAbs, jnLt])
            · exact absurd hcond (by simp [jnAbs, jnLt])
            rw [Option.some_inj] at h
            refine ⟨nfx, nfy, qx, qy, qz, hp1, hp2, (evalNum_ok_fin _ _).1 hv1,
              (evalNum_ok_fin _ _).1 hv2, ?_, ?_, hz, h.symm⟩
            · have h2 := hcond
              simp only [jnLt_abs_fin, Bool.and_eq_true, decide_eq_true_eq] at h2
              exact h2.1
            · have h2 := hcond
              simp only [jnLt_abs_fin, Bool.and_eq_true, decide_eq_true_eq] at h2
              exact h2.2
          case _ hz => exact absurd h (by simp)
        case isFalse hcond => exact absurd h (by simp)
      case _ e1 e2 hne => exact absurd h (by simp)
    case _ e1 e2 hne => exact absurd h (by simp)
  · rintro ⟨nfx, nfy, qx, qy, qz, hp1, hp2, he1, he2, hb1, hb2, hz, rfl⟩
    unfold candidateAt
    simp only [hp1, hp2, he1, he2, evalNum]
    rw [if_pos (by
      simp only [jnLt_abs_fin, Bool.and_eq_true, decide_eq_true_eq]
      exact ⟨hb1, hb2⟩), hz]

/-- C5: the critical-point scan returns at most 10 points; it returns the
empty list when the expression is invalid or `fx`/`fy` is absent; and
otherwise it is exactly the first at-most-10 candidates, scanning `x`
(outer) then `y` (inner) in steps of `0.5` from min to max, keeping points
where both re-parsed first derivatives evaluate within `0.1` of zero and
`z` is finite. -/
theorem C5_critical_point_scan :
    ∀ (H : HostCaps) (p : ParsedExpression) (d : DerivativeData)
      (xMin xMax yMin yMax : ℚ),
      (findCriticalPoints H p d xMin xMax yMin yMax).length ≤ 10 ∧
      (p.isValid = false ∨ d.fx = none ∨ d.fy = none →
        findCriticalPoints H p d xMin xMax yMin yMax = []) ∧
      (∀ sfx sfy, p.isValid = true → d.fx = some sfx → d.fy = some sfy →
        findCriticalPoints H p d xMin xMax yMin yMax =
          ((scanList xMin xMax).flatMap fun x =>
            (scanList yMin yMax).filterMap fun y =>
              candidateAt H p d sfx sfy x y).take 10) ∧
      (∀ q : ℚ, q ∈ scanList xMin xMax ↔
        ∃ k : ℕ, q = xMin + (k : ℚ) * (1 / 2) ∧ xMin + (k : ℚ) * (1 / 2) ≤ xMax) ∧
      (∀ (sfx sfy : String) (x y : ℚ) (cp : CriticalPoint),
        candidateAt H p d sfx sfy x y = some cp ↔
          ∃ (nfx nfy : MathNode) (qx qy qz : ℚ),
            H.parseCap sfx = .ok nfx ∧ H.parseCap sfy = .ok nfy ∧
            rawEval H [("x", x), ("y", y)] nfx = .num qx ∧
            rawEval H [("x", x), ("y", y)] nfy = .num qy ∧
            |qx| < 1 / 10 ∧ |qy| < 1 / 10 ∧
            evaluateExpression H p [("x", x), ("y", y)] = some qz ∧
            cp = ⟨x, y, qz, classifyCriticalPoint H d x y⟩) := by
  intro H p d xMin xMax yMin yMax
  refine ⟨?_, ?_, ?_, fun q => scanList_mem xMin xMax q,
    fun sfx sfy x y cp => candidateAt_spec H p d sfx sfy x y cp⟩
  · unfold findCriticalPoints
    rcases p.isValid with _ | _ <;> rcases d.fx with _ | sfx <;> rcases d.fy with _ | sfy <;>
      simp [List.length_take]
  · rintro (h | h | h) <;> unfold findCriticalPoints <;> rw [h] <;>
      rcases hv : p.isValid with _ | _ <;> rcases h1 : d.fx with _ | sfx <;>
      rcases h2 : d.fy with _ | sfy <;> rfl
  · intro sfx sfy hv h1 h2
    unfold findCriticalPoints
    rw [hv, h1, h2]

/-- Witness for C5: for `f = x^2 + y^2` with `fx = 2 * x`, `fy = 2 * y` on
the degenerate domain `[0,0] × [0,0]`, the scan equals the declarative
first-10 candidate list. -/
theorem C5_critical_point_scan_witness :
    findCriticalPoints hostLit pSq ⟨some "2 * x", some "2 * y", none, none, none⟩
        0 0 0 0 =
      ((scanList 0 0).flatMap fun x =>
        (scanList 0 0).filterMap fun y =>
          candidateAt hostLit pSq ⟨some "2 * x", some "2 * y", none, none, none⟩
            "2 * x" "2 * y" x y).take 10 :=
  (C5_critical_point_scan hostLit pSq
    ⟨some "2 * x", some "2 * y", none, none, none⟩ 0 0 0 0).2.2.1
    "2 * x" "2 * y" rfl rfl rfl

theorem yBranch_preserves (H : HostCaps) (p : ParsedExpression) (d : DerivativeData) :
    (yBranch H p d).fx = d.fx ∧ (yBranch H p d).fxx = d.fxx ∧
      (yBranch H p d).fxy = d.fxy := by
  unfold yBranch
  by_cases h : p.vars.contains "y" = true
  · rw [if_pos h]
    rcases H.deriv p.node "y" with e | fy
    · exact ⟨rfl, rfl, rfl⟩
    · dsimp only
      rcases H.deriv fy "y" with e | fyy <;> exact ⟨rfl, rfl, rfl⟩
  · rw [if_neg h]
    exact ⟨rfl, rfl, rfl⟩

theorem xBranch_preserves (H : HostCaps) (p : ParsedExpression) (d : DerivativeData) :
    (xBranch H p d).fy = d.fy ∧ (xBranch H p d).fyy = d.fyy := by
  unfold xBranch
  by_cases h : p.vars.contains "x" = true
  · rw [if_pos h]
    rcases H.deriv p.node "x" with e | fx
    · exact ⟨rfl, rfl⟩
    dsimp only
    rcases H.deriv fx "x" with e | fxx
    · exact ⟨rfl, rfl⟩
    dsimp only
    by_cases hy : p.vars.contains "y" = true
    · rw [if_pos hy]
      rcases H.deriv fx "y" with e | fxy <;> exact ⟨rfl, rfl⟩
    · rw [if_neg hy]
      exact ⟨rfl, rfl⟩
  · rw [if_neg h]
    exact ⟨rfl, rfl⟩

theorem xBranch_empty_fx (H : HostCaps) (p : ParsedExpression) :
    (xBranch H p {}).fx =
      (if p.vars.contains "x" then
        match H.deriv p.node "x" with
        | .error _ => none
        | .ok fx => some fx.render
      else none) := by
  unfold xBranch
  by_cases h : p.vars.contains "x" = true
  · rw [if_pos h, if_pos h]
    rcases H.deriv p.node "x" with e | fx
    · rfl
    dsimp only
    rcases H.deriv fx "x" with e | fxx
    · rfl
    dsimp only
    by_cases hy : p.vars.contains "y" = true
    · rw [if_pos hy]
      rcases H.deriv fx "y" with e | fxy <;> rfl
    · rw [if_neg hy]
  · rw [if_neg h, if_neg h]

theorem xBranch_empty_fxx (H : HostCaps) (p : ParsedExpression) :
    (xBranch H p {}).fxx =
      (if p.vars.contains "x" then
        match H.deriv p.node "x" with
        | .error _ => none
        | .ok fx =>
          match H.deriv fx "x" with
          | .error _ => none
          | .ok fxx => some fxx.render
      else none) := by
  unfold xBranch
  by_cases h : p.vars.contains "x" = true
  · rw [if_pos h, if_pos h]
    rcases H.deriv p.node "x" with e | fx
    · rfl
    dsimp only
    rcases H.deriv fx "x" with e | fxx
    · rfl
    dsimp only
    by_cases hy : p.vars.contains "y" = true
    · rw [if_pos hy]
      rcases H.deriv fx "y" with e | fxy <;> rfl
    · rw [if_neg hy]
  · rw [if_neg h, if_neg h]

theorem xBranch_empty_fxy (H : HostCaps) (p : ParsedExpression) :
    (xBranch H p {}).fxy =
      (if p.vars.contains "x" then
        match H.deriv p.node "x" with
        | .error _ => none
        | .ok fx =>
          match H.deriv fx "x" with
          | .error _ => none
          | .ok _ =>
            if p.vars.contains "y" then
              match H.deriv fx "y" with
              | .error _ => none
              | .ok fxy => some fxy.render
            else none
      else none) := by
  unfold xBranch
  by_cases h : p.vars.contains "x" = true
  · rw [if_pos h, if_pos h]
    rcases H.deriv p.node "x" with e | fx
    · rfl
    dsimp only
    rcases H.deriv fx "x" with e | fxx
    · rfl
    dsimp only
    by_cases hy : p.vars.contains "y" = true
    · rw [if_pos hy, if_pos hy]
      rcases H.deriv fx "y" with e | fxy <;> rfl
    · rw [if_neg hy, if_neg hy]
  · rw [if_neg h, if_neg h]

theorem yBranch_formula_fy (H : HostCaps) (p : ParsedExpression) (d : DerivativeData)
    (h1 : d.fy = none) :
    (yBranch H p d).fy =
      (if p.vars.contains "y" then
        match H.deriv p.node "y" with
        | .error _ => none
        | .ok fy => some fy.render
      else none) := by
  unfold yBranch
  by_cases h : p.vars.contains "y" = true
  · rw [if_pos h, if_pos h]
    rcases H.deriv p.node "y" with e | fy
    · exact h1
    dsimp only
    rcases H.deriv fy "y" with e | fyy <;> rfl
  · rw [if_neg h, if_neg h]
    exact h1

theorem yBranch_formula_fyy (H : HostCaps) (p : ParsedExpression) (d : DerivativeData)
    (h2 : d.fyy = none) :
    (yBranch H p d).fyy =
      (if p.vars.contains "y" then
        match H.deriv p.node "y" with
        | .error _ => none
        | .ok fy =>
          match H.deriv fy "y" with
          | .error _ => none
          | .ok fyy => some fyy.render
      else none) := by
  unfold yBranch
  by_cases h : p.vars.contains "y" = true
  · rw [if_pos h, if_pos h]
    rcases H.deriv p.node "y" with e | fy
    · exact h2
    dsimp only
    rcases H.deriv fy "y" with e | fyy
    · exact h2
    · rfl
  · rw [if_neg h, if_neg h]
    exact h2

/-- C6 (amended): the `x` and `y` derivative blocks are independent of one
another — each field of the result is a function of its own block's
`derivative` calls only, so a failure anywhere in the `x` block never
affects `fy`/`fyy` and vice versa, and `fx` survives a later `fxx`
failure.  Within the `x` block, however, the three steps share one
try/catch: `fxy` is computed only when the `fxx` step succeeded. -/
theorem C6_branch_independence :
    ∀ (H : HostCaps) (p : ParsedExpression), p.isValid = true →
      ((calculateDerivatives H p).fx =
        (if p.vars.contains "x" then
          match H.deriv p.node "x" with
          | .error _ => none
          | .ok fx => some fx.render
        else none)) ∧
      ((calculateDerivatives H p).fxx =
        (if p.vars.contains "x" then
          match H.deriv p.node "x" with
          | .error _ => none
          | .ok fx =>
            match H.deriv fx "x" with
            | .error _ => none
            | .ok fxx => some fxx.render
        else none)) ∧
      ((calculateDerivatives H p).fxy =
        (if p.vars.contains "x" then
          match H.deriv p.node "x" with
          | .error _ => none
          | .ok fx =>
            match H.deriv fx "x" with
            | .error _ => none
            | .ok _ =>
              if p.vars.contains "y" then
                match H.deriv fx "y" with
                | .error _ => none
                | .ok fxy => some fxy.render
              else none
        else none)) ∧
      ((calculateDerivatives H p).fy =
        (if p.vars.contains "y" then
          match H.deriv p.node "y" with
          | .error _ => none
          | .ok fy => some fy.render
        else none)) ∧
      ((calculateDerivatives H p).fyy =
        (if p.vars.contains "y" then
          match H.deriv p.node "y" with
          | .error _ => none
          | .ok fy =>
            match H.deriv fy "y" with
            | .error _ => none
            | .ok fyy => some fyy.render
        else none)) := by
  intro H p hv
  have hxp := xBranch_preserves H p {}
  have hyp := yBranch_preserves H p (xBranch H p {})
  have hcd : calculateDerivatives H p = yBranch H p (xBranch H p {}) := by
    unfold calculateDerivatives
    rw [if_pos hv]
  rw [hcd]
  exact ⟨hyp.1.trans (xBranch_empty_fx H p),
    hyp.2.1.trans (xBranch_empty_fxx H p),
    hyp.2.2.trans (xBranch_empty_fxy H p),
    yBranch_formula_fy H p _ (hxp.1.trans rfl),
    yBranch_formula_fyy H p _ (hxp.2.trans rfl)⟩

/-- Witness for C6 (amended claim) at `host6` / `p6`. -/
theorem C6_branch_independence_witness :
    (calculateDerivatives host6 p6).fx =
      (if p6.vars.contains "x" then
        match host6.deriv p6.node "x" with
        | .error _ => none
        | .ok fx => some fx.render
      else none) ∧
    (calculateDerivatives host6 p6).fy =
      (if p6.vars.contains "y" then
        match host6.deriv p6.node "y" with
        | .error _ => none
        | .ok fy => some fy.render
      else none) :=
  ⟨(C6_branch_independence host6 p6 rfl).1,
   (C6_branch_independence host6 p6 rfl).2.2.2.1⟩

/-- Counterexample to C6 as stated: with `host6` and `p6` (both `x` and
`y` free), computing `fx` succeeds, computing `fxx` throws, and the mixed
derivative `d(fx)/dy` would succeed — yet `fxy` is absent from the result,
because the source computes `fxy` inside the same try block as `fxx`.
Meanwhile `fx` and the whole `y` branch are unaffected. -/
theorem C6_shared_try_counterexample :
    (calculateDerivatives host6 p6).fxy = none ∧
    host6.deriv (.sym "xDeriv") "y" = .ok (.sym "mixedD") ∧
    (calculateDerivatives host6 p6).fx = some "xDeriv" ∧
    (calculateDerivatives host6 p6).fy = some "yDeriv" ∧
    (calculateDerivatives host6 p6).fyy = some "yyD" := by
  exact ⟨by decide, rfl, by decide, by decide, by decide⟩
